import Mathlib

/-!
Verification of the UMP parser (`types.go`) against its specification.

Bytes are modelled as `Nat` (a Go `byte` is always `< 256`; none of the
statements need that bound, so it is not carried as a hypothesis).
Byte slices are `List Nat`; a `bytes.Buffer` is the list of its unread bytes.
Go's multiple-return `(value, error)` becomes `Except`.
-/

namespace UMPParser

/-- Error kinds produced by the Go code, one constructor per distinct
`errors.New` / `fmt.Errorf` site in `types.go`. -/
inductive UMPError where
  | noDataAvailable : UMPError
  | malformedVarint : Nat → UMPError
  | incompleteVarint : UMPError
  | headerDecodeFailed : UMPError
  | noData : UMPError
deriving DecidableEq

deriving instance DecidableEq for Except

/-- Translation of `getVarIntSize` (types.go:33): the number of bytes of the
varint, given its first byte; `0` indicates an invalid varint (all five top
bits set).  The Go loop tests `b & (0x80 >> (shift-1))` for `shift = 1..5`. -/
def getVarIntSize (b : Nat) : Nat :=
  if b &&& 0x80 = 0 then 1
  else if b &&& 0x40 = 0 then 2
  else if b &&& 0x20 = 0 then 3
  else if b &&& 0x10 = 0 then 4
  else if b &&& 0x08 = 0 then 5
  else 0

/-- Translation of `readVarInt` (types.go:46).  The Go function mutates
`*offset`; here the second component of the result is the value of the offset
after the call (the Go code only executes `*offset += size` on the success
path, so on every error the offset is returned unchanged). -/
def readVarInt (data : List Nat) (offset : Nat) : Except UMPError Nat × Nat :=
  if data.length ≤ offset then (.error .noDataAvailable, offset)
  else
    let first := data.getD offset 0
    let size := getVarIntSize first
    if size = 0 then (.error (.malformedVarint offset), offset)
    else if data.length < offset + size then (.error .incompleteVarint, offset)
    else
      let value :=
        if size = 1 then first
        else if size = 2 then (first &&& 0x3F) ||| (data.getD (offset + 1) 0 <<< 6)
        else if size = 3 then
          (first &&& 0x1F) ||| (data.getD (offset + 1) 0 <<< 5) |||
            (data.getD (offset + 2) 0 <<< 13)
        else if size = 4 then
          (first &&& 0x0F) ||| (data.getD (offset + 1) 0 <<< 4) |||
            (data.getD (offset + 2) 0 <<< 12) ||| (data.getD (offset + 3) 0 <<< 20)
        else
          (data.getD (offset + 1) 0) ||| (data.getD (offset + 2) 0 <<< 8) |||
            (data.getD (offset + 3) 0 <<< 16) ||| (data.getD (offset + 4) 0 <<< 24)
      (.ok value, offset + size)

/-- The `UMPMediaHeader` struct (types.go in part_000): `VideoID string`,
`ITag int32`, `Lmt int64`.  The string is modelled as its byte list. -/
structure UMPMediaHeader where
  videoID : List Nat
  iTag : Int
  lmt : Int
deriving DecidableEq

/-- Interpretation of a protobuf varint-encoded value as Go `int32`
(two's complement of the low 32 bits). -/
def toInt32 (n : Nat) : Int :=
  if n % 2 ^ 32 < 2 ^ 31 then ((n % 2 ^ 32 : Nat) : Int)
  else ((n % 2 ^ 32 : Nat) : Int) - 2 ^ 32

/-- Interpretation of a protobuf varint-encoded value as Go `int64`
(two's complement of the low 64 bits). -/
def toInt64 (n : Nat) : Int :=
  if n % 2 ^ 64 < 2 ^ 63 then ((n % 2 ^ 64 : Nat) : Int)
  else ((n % 2 ^ 64 : Nat) : Int) - 2 ^ 64

/-- Standard protobuf base-128 varint: low 7 bits per byte,
least-significant group first, top bit is the continuation bit.
Returns the decoded value and the remaining bytes. -/
def pbReadVarint : List Nat → Option (Nat × List Nat)
  | [] => none
  | b :: rest =>
    if b &&& 0x80 = 0 then some (b, rest)
    else
      match pbReadVarint rest with
      | none => none
      | some (v, rest') => some ((b &&& 0x7F) ||| (v <<< 7), rest')

/-- Skip one protobuf field value of the given wire type, returning the
remaining bytes (`none` on truncated or unknown wire types). -/
def pbSkipField (wt : Nat) (bs : List Nat) : Option (List Nat) :=
  if wt = 0 then
    match pbReadVarint bs with
    | none => none
    | some (_, rest) => some rest
  else if wt = 1 then
    if 8 ≤ bs.length then some (bs.drop 8) else none
  else if wt = 2 then
    match pbReadVarint bs with
    | none => none
    | some (len, rest) => if len ≤ rest.length then some (rest.drop len) else none
  else if wt = 5 then
    if 4 ≤ bs.length then some (bs.drop 4) else none
  else none

/-- Modelled from the spec: the generated protobuf code for the `MediaHeader`
message and the library function `proto.Unmarshal` are not among the repository
sources; per the spec the type-20 payload is "a serialized header record with
at least three addressable fields — a text video identifier (field slot 2),
a signed 32-bit format tag (field slot 3), a signed 64-bit last-modified
timestamp (field slot 4). Unknown/absent fields default to empty string /
zero."  This is the standard protobuf wire format restricted to those slots:
each field is a varint key `(slot <<< 3) ||| wireType`; slot 2 carries a
length-delimited string, slots 3 and 4 carry varint integers; other fields are
skipped by wire type; truncated input fails.  On repeated fields the last
occurrence wins (standard proto3).  The fuel argument (one unit per field, a
field is at least one byte) makes the recursion structural; it is always
sufficient because every iteration consumes at least one byte. -/
def pbDecodeFields : Nat → List Nat → UMPMediaHeader → Option UMPMediaHeader
  | _, [], h => some h
  | 0, _ :: _, _ => none
  | fuel + 1, bs, h =>
    match pbReadVarint bs with
    | none => none
    | some (key, rest) =>
      if key >>> 3 = 2 ∧ key &&& 7 = 2 then
        match pbReadVarint rest with
        | none => none
        | some (len, rest') =>
          if len ≤ rest'.length then
            pbDecodeFields fuel (rest'.drop len) { h with videoID := rest'.take len }
          else none
      else if key >>> 3 = 3 ∧ key &&& 7 = 0 then
        match pbReadVarint rest with
        | none => none
        | some (v, rest') => pbDecodeFields fuel rest' { h with iTag := toInt32 v }
      else if key >>> 3 = 4 ∧ key &&& 7 = 0 then
        match pbReadVarint rest with
        | none => none
        | some (v, rest') => pbDecodeFields fuel rest' { h with lmt := toInt64 v }
      else
        match pbSkipField (key &&& 7) rest with
        | none => none
        | some rest' => pbDecodeFields fuel rest' h

/-- Modelled from the spec (see `pbDecodeFields`): stand-in for
`proto.Unmarshal(payload, &protoHeader)` followed by building the
`UMPMediaHeader` from the getters (types.go:130-139).  `none` is the
unmarshal-error case. -/
def unmarshalMediaHeader (payload : List Nat) : Option UMPMediaHeader :=
  pbDecodeFields payload.length payload ⟨[], 0, 0⟩

set_option maxHeartbeats 1600000 in
/-- Translation of the loop body of `stateMachineParser` (types.go:96-154).
The Go code walks a fixed slice `data` with an absolute `offset`; bytes before
`offset` are never read again, so the model recurses on the not-yet-consumed
suffix `rem` (the `readVarInt` calls happen at relative offsets `0` and `o1`
of `rem`, which address exactly the same bytes as the Go code's absolute
offsets).  The returned quadruple is `(umpHeader, buffer after buf.Next(offset),
mediaAcc, firstMedia)`.

Faithfulness notes, traced from the source:
- any `readVarInt` error (insufficient data and malformed alike) just breaks
  the loop (types.go:103-105, 109-113);
- when the part-size read fails, the Go code breaks with `offset` already
  advanced past the part-type varint (the `offset -= 0` at types.go:111 does
  not undo it), hence the `rem.drop o1` in that branch;
- when the payload is incomplete, the Go code breaks with `offset` advanced
  past both header varints (types.go:119-123), hence the `rem.drop o2`;
- a header unmarshal failure returns the error without running `buf.Next`
  (types.go:131-132). -/
def smLoop (rem acc : List Nat) (fm : Bool) (hdr : Option UMPMediaHeader) :
    Except UMPError (Option UMPMediaHeader × List Nat × List Nat × Bool) :=
  if hrem : rem = [] then .ok (hdr, rem, acc, fm)
  else
    match h1 : readVarInt rem 0 with
    | (.error _, _) => .ok (hdr, rem, acc, fm)
    | (.ok partType, o1) =>
      match h2 : readVarInt rem o1 with
      | (.error _, _) => .ok (hdr, rem.drop o1, acc, fm)
      | (.ok partSize, o2) =>
        if partSize = 0 then
          smLoop (rem.drop o2) acc fm hdr
        else if rem.length < o2 + partSize then
          .ok (hdr, rem.drop o2, acc, fm)
        else
          let payload := (rem.drop o2).take partSize
          if partType = 20 then
            match unmarshalMediaHeader payload with
            | none => .error .headerDecodeFailed
            | some ph => smLoop (rem.drop (o2 + partSize)) acc fm (some ph)
          else if partType = 21 then
            let acc' :=
              if fm = false ∧ 0 < payload.length ∧ payload.headD 1 = 0 then
                acc ++ payload.tail
              else acc ++ payload
            smLoop (rem.drop (o2 + partSize)) acc' true hdr
          else
            smLoop (rem.drop (o2 + partSize)) acc fm hdr
termination_by rem.length
decreasing_by
  all_goals
    have hb1 : 0 < o1 ∧ o1 ≤ rem.length := by
      have h := h1
      simp only [readVarInt] at h
      split at h
      · simp at h
      · split at h
        · simp at h
        · split at h
          · simp at h
          · rename_i hsz hbnd
            injection h with hv ho
            omega
    have hb2 : o1 < o2 ∧ o2 ≤ rem.length := by
      have h := h2
      simp only [readVarInt] at h
      split at h
      · simp at h
      · split at h
        · simp at h
        · split at h
          · simp at h
          · rename_i hsz hbnd
            injection h with hv ho
            omega
    have hlen : 0 < rem.length := List.length_pos.mpr hrem
    simp only [List.length_drop]
    omega

/-- Translation of `stateMachineParser` (types.go:92): runs the loop on the
buffer's bytes with a fresh `umpHeader`, the loop itself performing the final
`buf.Next(offset)` (the second component of the result is the buffer content
after the call). -/
def stateMachineParser (buf acc : List Nat) (fm : Bool) :
    Except UMPError (Option UMPMediaHeader × List Nat × List Nat × Bool) :=
  smLoop buf acc fm none

/-- The `UMPData` result struct (part_000): optional media header plus the
accumulated media bytes. -/
structure UMPData where
  mediaHeader : Option UMPMediaHeader
  media : List Nat
deriving DecidableEq

/-- Translation of `if h != nil { umpHeader = h }` (types.go:186-188, 217-219). -/
def updateHeader (old newHdr : Option UMPMediaHeader) : Option UMPMediaHeader :=
  match newHdr with
  | some h => some h
  | none => old

/-- Translation of the chunk loop of `ParseUMPChunks` (types.go:177-189):
empty chunks are skipped, a non-empty chunk is appended to the session buffer
and the state machine runs once. -/
def parseChunksLoop :
    List (List Nat) → List Nat → List Nat → Bool → Option UMPMediaHeader →
      Except UMPError UMPData
  | [], _, acc, _, hdr => .ok ⟨hdr, acc⟩
  | c :: rest, buf, acc, fm, hdr =>
    if c.length = 0 then parseChunksLoop rest buf acc fm hdr
    else
      match stateMachineParser (buf ++ c) acc fm with
      | .error e => .error e
      | .ok (h, buf', acc', fm') =>
        parseChunksLoop rest buf' acc' fm' (updateHeader hdr h)

/-- Translation of `ParseUMPChunks` (types.go:167). -/
def ParseUMPChunks (data : List (List Nat)) : Except UMPError UMPData :=
  if data.length = 0 then .error .noData
  else parseChunksLoop data [] [] false none

/-- Outcome of `ParseUMPFull`, whose `for buf.Len() > 0` loop can fail to
terminate: `diverges` marks exactly the runs in which an iteration leaves the
non-empty buffer unchanged — the state machine is a pure function of in-memory
state, so the Go loop then repeats that iteration forever
(see `stateMachineParser_no_progress`). -/
inductive RunResult where
  | ok : UMPData → RunResult
  | err : UMPError → RunResult
  | diverges : RunResult
deriving DecidableEq

/-- Translation of the `for buf.Len() > 0` loop of `ParseUMPFull`
(types.go:212-220).  An iteration that consumes nothing from a non-empty
buffer puts the Go program in an infinite loop; the model reports that as
`RunResult.diverges`. -/
def parseFullLoop (buf acc : List Nat) (fm : Bool) (hdr : Option UMPMediaHeader) :
    RunResult :=
  if buf.length = 0 then .ok ⟨hdr, acc⟩
  else
    match stateMachineParser buf acc fm with
    | .error e => .err e
    | .ok (h, buf', acc', fm') =>
      if hp : buf'.length < buf.length then
        parseFullLoop buf' acc' fm' (updateHeader hdr h)
      else .diverges
termination_by buf.length

/-- Translation of `ParseUMPFull` (types.go:202). -/
def ParseUMPFull (data : List Nat) : RunResult :=
  if data.length = 0 then .err .noData
  else parseFullLoop data [] false none

/-- Wire encoding of one part, `varint(type) varint(length) payload`, in the
case where type and length both fit in a single-byte varint (< 128; the spec
notes all current type numbers are below 128). -/
def encodePart (t : Nat) (p : List Nat) : List Nat :=
  t :: p.length :: p

/-- Wire encoding of a sequence of parts, concatenated. -/
def encodeParts : List (Nat × List Nat) → List Nat
  | [] => []
  | (t, p) :: rest => encodePart t p ++ encodeParts rest

/-- Specification-level media accumulator over a sequence of parts
(spec 4.2g, amended to the code's rule): a type-21 part with a non-empty
payload is appended, except that the first such part of the session — that is,
while the first-media flag `fm` is still false — has one leading byte removed
when (and only when) that byte is zero; zero-length parts and all other part
types contribute nothing. -/
def specMediaAcc : Bool → List (Nat × List Nat) → List Nat
  | _, [] => []
  | fm, (t, p) :: rest =>
    if t = 21 ∧ p ≠ [] then
      (if fm = false ∧ p.headD 1 = 0 then p.tail else p) ++ specMediaAcc true rest
    else specMediaAcc fm rest

/-- Specification-level header accumulator (spec 4.2g / data model):
each complete type-20 part's decoded record wholesale replaces the current
one (last-writer-wins, no field merging); zero-length type-20 parts are
skipped before dispatch and so do not touch it. -/
def specHeaderAcc : Option UMPMediaHeader → List (Nat × List Nat) → Option UMPMediaHeader
  | hdr, [] => hdr
  | hdr, (t, p) :: rest =>
    if t = 20 ∧ p ≠ [] then specHeaderAcc (unmarshalMediaHeader p) rest
    else specHeaderAcc hdr rest

/-- Whether a sequence of parts contains a processed (non-zero-length)
type-21 part, i.e. whether the session's first-media flag ends up set. -/
def specAnyMedia (parts : List (Nat × List Nat)) : Bool :=
  parts.any fun tp => tp.1 == 21 && !tp.2.isEmpty

/-- The header record the spec promises as the final one: the decode of the
payload of the most recent type-20 part that was actually processed
(non-zero length), or none if there is no such part. -/
def lastWriterHeader (parts : List (Nat × List Nat)) : Option UMPMediaHeader :=
  match (parts.filter fun tp => tp.1 == 20 && !tp.2.isEmpty).getLast? with
  | none => none
  | some tp => unmarshalMediaHeader tp.2

/-- Statement of claim C5's reading of the first-media rule, for comparison
with the code: strip one leading zero byte from the first type-21 payload
that is non-empty and starts with a zero byte (wherever it occurs in the
session), and append every other type-21 payload verbatim. -/
def claimC5Media : Bool → List (List Nat) → List Nat
  | _, [] => []
  | stripped, p :: rest =>
    if stripped = false ∧ p ≠ [] ∧ p.headD 1 = 0 then p.tail ++ claimC5Media true rest
    else p ++ claimC5Media stripped rest

/-! Helper lemmas about the varint codec. -/

lemma and128_eq_zero {a : Nat} (ha : a < 128) : a &&& 128 = 0 := by
  have h := Nat.and_two_pow a 7
  rw [Nat.testBit_eq_false_of_lt (by norm_num [ha] : a < 2 ^ 7)] at h
  simpa using h

/-- A successful varint read advances the offset by the size encoded in the
first byte, staying within the slice. -/
lemma readVarInt_ok_bounds {data : List Nat} {off v o2 : Nat}
    (h : readVarInt data off = (.ok v, o2)) :
    off < o2 ∧ o2 ≤ data.length ∧ o2 = off + getVarIntSize (data.getD off 0) := by
  simp only [readVarInt] at h
  split at h
  · simp at h
  · split at h
    · simp at h
    · split at h
      · simp at h
      · rename_i hno hsz hbnd
        injection h with hv ho
        omega

/-- A failed varint read leaves the offset unchanged (the Go code only runs
`*offset += size` on the success path). -/
lemma readVarInt_error_offset {data : List Nat} {off : Nat} {e : UMPError} {o2 : Nat}
    (h : readVarInt data off = (.error e, o2)) : o2 = off := by
  simp only [readVarInt] at h
  split at h
  · injection h with hv ho; omega
  · split at h
    · injection h with hv ho; omega
    · split at h
      · injection h with hv ho; omega
      · simp at h

/-- A single byte below 128 is a complete 1-byte varint. -/
lemma readVarInt_cons_small {a : Nat} (l : List Nat) (ha : a < 128) :
    readVarInt (a :: l) 0 = (.ok a, 1) := by
  simp [readVarInt, getVarIntSize, and128_eq_zero ha]

/-- Reading at offset 1 of a list whose second byte is below 128. -/
lemma readVarInt_cons_cons_one (a : Nat) {b : Nat} (l : List Nat) (hb : b < 128) :
    readVarInt (a :: b :: l) 1 = (.ok b, 2) := by
  simp [readVarInt, getVarIntSize, and128_eq_zero hb]

/-! One-step unfolding lemmas for the state-machine loop. -/

lemma smLoop_nil (acc : List Nat) (fm : Bool) (hdr : Option UMPMediaHeader) :
    smLoop [] acc fm hdr = .ok (hdr, [], acc, fm) := by
  rw [smLoop.eq_def]
  rfl

/-- Loop break when the part-type varint fails: nothing is consumed. -/
lemma smLoop_break1 {rem : List Nat} (acc : List Nat) (fm : Bool)
    (hdr : Option UMPMediaHeader) (h : rem ≠ []) {e : UMPError} {o : Nat}
    (h1 : readVarInt rem 0 = (.error e, o)) :
    smLoop rem acc fm hdr = .ok (hdr, rem, acc, fm) := by
  rw [smLoop.eq_def, dif_neg h]
  split
  · rfl
  · rename_i pt o1 heq
    rw [h1] at heq
    cases heq

/-- Loop break when the part-size varint fails: the part-type varint has
already been consumed (the `offset -= 0` in the source does not rewind). -/
lemma smLoop_break2 {rem : List Nat} (acc : List Nat) (fm : Bool)
    (hdr : Option UMPMediaHeader) (h : rem ≠ []) {t o1 : Nat}
    (h1 : readVarInt rem 0 = (.ok t, o1)) {e : UMPError} {o : Nat}
    (h2 : readVarInt rem o1 = (.error e, o)) :
    smLoop rem acc fm hdr = .ok (hdr, rem.drop o1, acc, fm) := by
  rw [smLoop.eq_def, dif_neg h]
  split
  · rename_i heq
    rw [h1] at heq
    cases heq
  · rename_i pt o1' heq
    rw [h1] at heq
    injection heq with hv ho
    injection hv with hv
    subst hv
    subst ho
    split
    · rfl
    · rename_i ps o2' heq2
      rw [h2] at heq2
      cases heq2

/-- One full iteration of the loop once both header varints have been read. -/
lemma smLoop_cont {rem : List Nat} (acc : List Nat) (fm : Bool)
    (hdr : Option UMPMediaHeader) (h : rem ≠ []) {t o1 sz o2 : Nat}
    (h1 : readVarInt rem 0 = (.ok t, o1))
    (h2 : readVarInt rem o1 = (.ok sz, o2)) :
    smLoop rem acc fm hdr =
      if sz = 0 then smLoop (rem.drop o2) acc fm hdr
      else if rem.length < o2 + sz then .ok (hdr, rem.drop o2, acc, fm)
      else
        if t = 20 then
          match unmarshalMediaHeader ((rem.drop o2).take sz) with
          | none => .error .headerDecodeFailed
          | some ph => smLoop (rem.drop (o2 + sz)) acc fm (some ph)
        else if t = 21 then
          smLoop (rem.drop (o2 + sz))
            (if fm = false ∧ 0 < ((rem.drop o2).take sz).length ∧
                ((rem.drop o2).take sz).headD 1 = 0 then
              acc ++ ((rem.drop o2).take sz).tail
            else acc ++ ((rem.drop o2).take sz))
            true hdr
        else smLoop (rem.drop (o2 + sz)) acc fm hdr := by
  rw [smLoop.eq_def, dif_neg h]
  split
  · rename_i heq
    rw [h1] at heq
    cases heq
  · rename_i pt o1' heq
    rw [h1] at heq
    injection heq with hv ho
    injection hv with hv
    subst hv
    subst ho
    split
    · rename_i heq2
      rw [h2] at heq2
      cases heq2
    · rename_i ps o2' heq2
      rw [h2] at heq2
      injection heq2 with hv2 ho2
      injection hv2 with hv2
      subst hv2
      subst ho2
      rfl

/-- Running the state machine on the encoding of a sequence of parts (types
and payload lengths below 128) consumes the whole buffer and produces exactly
the specification-level accumulators.  Type-20 payloads are required to be
decodable, matching the spec's hard-failure rule for undecodable headers. -/
lemma smLoop_encodeParts (parts : List (Nat × List Nat)) :
    ∀ (acc : List Nat) (fm : Bool) (hdr : Option UMPMediaHeader),
    (∀ tp ∈ parts, tp.1 < 128 ∧ tp.2.length < 128) →
    (∀ tp ∈ parts, tp.1 = 20 → tp.2 ≠ [] → (unmarshalMediaHeader tp.2).isSome) →
    smLoop (encodeParts parts) acc fm hdr =
      .ok (specHeaderAcc hdr parts, [], acc ++ specMediaAcc fm parts,
        fm || specAnyMedia parts) := by
  induction parts with
  | nil =>
    intro acc fm hdr _ _
    simp [encodeParts, specHeaderAcc, specMediaAcc, specAnyMedia, smLoop_nil]
  | cons tp rest ih =>
    obtain ⟨t, p⟩ := tp
    intro acc fm hdr henc hdec
    have ht : t < 128 := (henc (t, p) (by simp)).1
    have hpl : p.length < 128 := (henc (t, p) (by simp)).2
    have henc' : ∀ tp ∈ rest, tp.1 < 128 ∧ tp.2.length < 128 := by
      intro tp htp; exact henc tp (by simp [htp])
    have hdec' : ∀ tp ∈ rest, tp.1 = 20 → tp.2 ≠ [] → (unmarshalMediaHeader tp.2).isSome := by
      intro tp htp; exact hdec tp (by simp [htp])
    have hE : encodeParts ((t, p) :: rest) = t :: p.length :: (p ++ encodeParts rest) := by
      simp [encodeParts, encodePart]
    rw [hE]
    have h1 : readVarInt (t :: p.length :: (p ++ encodeParts rest)) 0 = (.ok t, 1) :=
      readVarInt_cons_small _ ht
    have h2 : readVarInt (t :: p.length :: (p ++ encodeParts rest)) 1 = (.ok p.length, 2) :=
      readVarInt_cons_cons_one _ _ hpl
    rw [smLoop_cont acc fm hdr (by simp) h1 h2]
    by_cases hp0 : p.length = 0
    · have hpnil : p = [] := List.length_eq_zero.mp hp0
      subst hpnil
      simp only [List.length_nil, List.nil_append, if_pos rfl, List.drop_succ_cons,
        List.drop_zero]
      rw [ih acc fm hdr henc' hdec']
      simp [specHeaderAcc, specMediaAcc, specAnyMedia]
    · rw [if_neg hp0]
      have hlen : ¬ (t :: p.length :: (p ++ encodeParts rest)).length < 2 + p.length := by
        simp; omega
      rw [if_neg hlen]
      have hdrop2 : (t :: p.length :: (p ++ encodeParts rest)).drop 2 = p ++ encodeParts rest := by
        simp
      have hpayload : ((t :: p.length :: (p ++ encodeParts rest)).drop 2).take p.length = p := by
        rw [hdrop2]; exact List.take_left p _
      have hdropall : (t :: p.length :: (p ++ encodeParts rest)).drop (2 + p.length)
          = encodeParts rest := by
        have : (2 + p.length) = p.length + 2 := by omega
        rw [this]
        simp only [List.drop_succ_cons]
        exact List.drop_left p _
      rw [hpayload, hdropall]
      have hpne : p ≠ [] := by
        intro hc; exact hp0 (by simp [hc])
      by_cases ht20 : t = 20
      · subst ht20
        obtain ⟨ph, hph⟩ := Option.isSome_iff_exists.mp (hdec (20, p) (by simp) rfl hpne)
        rw [if_pos rfl, hph]
        show smLoop (encodeParts rest) acc fm (some ph) = _
        rw [ih acc fm (some ph) henc' hdec']
        simp [specHeaderAcc, specMediaAcc, specAnyMedia, hpne, hph]
      · by_cases ht21 : t = 21
        · subst ht21
          rw [if_neg ht20, if_pos rfl]
          rw [ih _ true hdr henc' hdec']
          have hpl0 : 0 < p.length := Nat.pos_of_ne_zero hp0
          have hhdr : specHeaderAcc hdr ((21, p) :: rest) = specHeaderAcc hdr rest := by
            simp only [specHeaderAcc]
            rw [if_neg (by simp)]
          have hany : specAnyMedia ((21, p) :: rest) = true := by
            simp [specAnyMedia, hpne]
          by_cases hstrip : fm = false ∧ p.headD 1 = 0
          · rw [if_pos ⟨hstrip.1, hpl0, hstrip.2⟩]
            have hmed : specMediaAcc fm ((21, p) :: rest) = p.tail ++ specMediaAcc true rest := by
              simp only [specMediaAcc]
              rw [if_pos ⟨trivial, hpne⟩, if_pos hstrip]
            rw [hhdr, hany, hmed]
            simp [List.append_assoc, hstrip.1]
          · rw [if_neg (by rintro ⟨a, _, c⟩; exact hstrip ⟨a, c⟩)]
            have hmed : specMediaAcc fm ((21, p) :: rest) = p ++ specMediaAcc true rest := by
              simp only [specMediaAcc]
              rw [if_pos ⟨trivial, hpne⟩, if_neg hstrip]
            rw [hhdr, hany, hmed]
            simp [List.append_assoc]
        · rw [if_neg ht20, if_neg ht21]
          rw [ih acc fm hdr henc' hdec']
          have hbeq : (t == 21) = false := beq_eq_false_iff_ne.mpr ht21
          have hhdr : specHeaderAcc hdr ((t, p) :: rest) = specHeaderAcc hdr rest := by
            simp only [specHeaderAcc]
            rw [if_neg (by rintro ⟨a, _⟩; exact ht20 a)]
          have hmed : specMediaAcc fm ((t, p) :: rest) = specMediaAcc fm rest := by
            simp only [specMediaAcc]
            rw [if_neg (by rintro ⟨a, _⟩; exact ht21 a)]
          rw [hhdr, hmed]
          simp [specAnyMedia, hbeq]

/-! Orchestration lemmas. -/

lemma updateHeader_none_left (h : Option UMPMediaHeader) : updateHeader none h = h := by
  cases h <;> rfl

lemma encodeParts_ne_nil {parts : List (Nat × List Nat)} (h : parts ≠ []) :
    encodeParts parts ≠ [] := by
  match parts, h with
  | (t, p) :: rest, _ => simp [encodeParts, encodePart]

lemma ParseUMPFull_encodeParts (parts : List (Nat × List Nat)) (hne : parts ≠ [])
    (henc : ∀ tp ∈ parts, tp.1 < 128 ∧ tp.2.length < 128)
    (hdec : ∀ tp ∈ parts, tp.1 = 20 → tp.2 ≠ [] → (unmarshalMediaHeader tp.2).isSome) :
    ParseUMPFull (encodeParts parts) =
      .ok ⟨specHeaderAcc none parts, specMediaAcc false parts⟩ := by
  have hEne : encodeParts parts ≠ [] := encodeParts_ne_nil hne
  have hlen : encodeParts parts ≠ [] → (encodeParts parts).length ≠ 0 := by
    intro h hc
    exact h (List.length_eq_zero.mp hc)
  rw [ParseUMPFull, if_neg (hlen hEne)]
  rw [parseFullLoop]
  rw [if_neg (hlen hEne)]
  have hsm : stateMachineParser (encodeParts parts) [] false =
      .ok (specHeaderAcc none parts, [], [] ++ specMediaAcc false parts,
        false || specAnyMedia parts) := by
    rw [stateMachineParser, smLoop_encodeParts parts [] false none henc hdec]
  rw [hsm]
  show (if hp : ([] : List Nat).length < (encodeParts parts).length then _ else _) = _
  rw [dif_pos (by simpa using List.length_pos.mpr hEne)]
  rw [parseFullLoop]
  simp [updateHeader_none_left]

lemma specAnyMedia_singleton_false {t : Nat} {p : List Nat} (h : ¬(t = 21 ∧ p ≠ [])) :
    specAnyMedia [(t, p)] = false := by
  simp only [specAnyMedia, List.any_cons, List.any_nil, Bool.or_false]
  rw [Bool.and_eq_false_iff]
  by_cases ht : t = 21
  · right
    subst ht
    simp only [Bool.not_eq_false', List.isEmpty_iff]
    by_contra hc
    exact h ⟨rfl, by simpa using hc⟩
  · left
    exact beq_eq_false_iff_ne.mpr ht

lemma specMediaAcc_cons_split (fm : Bool) (t : Nat) (p : List Nat)
    (rest : List (Nat × List Nat)) :
    specMediaAcc fm ((t, p) :: rest) =
      specMediaAcc fm [(t, p)] ++ specMediaAcc (fm || specAnyMedia [(t, p)]) rest := by
  by_cases h : t = 21 ∧ p ≠ []
  · obtain ⟨ht, hp⟩ := h
    subst ht
    have hany : specAnyMedia [(21, p)] = true := by
      simp [specAnyMedia, hp]
    simp only [specMediaAcc, hany, Bool.or_true, List.append_nil]
    rw [if_pos (⟨trivial, hp⟩ : True ∧ p ≠ []), if_pos (⟨trivial, hp⟩ : True ∧ p ≠ [])]
  · have hany := specAnyMedia_singleton_false h
    simp only [specMediaAcc, if_neg h, hany, Bool.or_false, List.nil_append]

lemma specHeaderAcc_cons_split (hdr : Option UMPMediaHeader) (t : Nat) (p : List Nat)
    (rest : List (Nat × List Nat))
    (hu : t = 20 → p ≠ [] → (unmarshalMediaHeader p).isSome) :
    specHeaderAcc hdr ((t, p) :: rest) =
      specHeaderAcc (updateHeader hdr (specHeaderAcc none [(t, p)])) rest := by
  by_cases h : t = 20 ∧ p ≠ []
  · obtain ⟨ph, hph⟩ := Option.isSome_iff_exists.mp (hu h.1 h.2)
    simp only [specHeaderAcc, if_pos h, hph, updateHeader]
  · simp only [specHeaderAcc, if_neg h, updateHeader]

lemma parseChunksLoop_encodeParts (parts : List (Nat × List Nat)) :
    ∀ (acc : List Nat) (fm : Bool) (hdr : Option UMPMediaHeader),
    (∀ tp ∈ parts, tp.1 < 128 ∧ tp.2.length < 128) →
    (∀ tp ∈ parts, tp.1 = 20 → tp.2 ≠ [] → (unmarshalMediaHeader tp.2).isSome) →
    parseChunksLoop (parts.map fun tp => encodePart tp.1 tp.2) [] acc fm hdr =
      .ok ⟨specHeaderAcc hdr parts, acc ++ specMediaAcc fm parts⟩ := by
  induction parts with
  | nil =>
    intro acc fm hdr _ _
    simp [parseChunksLoop, specHeaderAcc, specMediaAcc]
  | cons tp rest ih =>
    obtain ⟨t, p⟩ := tp
    intro acc fm hdr henc hdec
    have henc' : ∀ tp ∈ rest, tp.1 < 128 ∧ tp.2.length < 128 := by
      intro tp htp; exact henc tp (by simp [htp])
    have hdec' : ∀ tp ∈ rest, tp.1 = 20 → tp.2 ≠ [] → (unmarshalMediaHeader tp.2).isSome := by
      intro tp htp; exact hdec tp (by simp [htp])
    have hE1 : encodePart t p = encodeParts [(t, p)] := by
      simp [encodeParts]
    rw [List.map_cons, parseChunksLoop]
    rw [if_neg (by simp [encodePart])]
    have hsm : stateMachineParser ([] ++ encodePart t p) acc fm =
        .ok (specHeaderAcc none [(t, p)], [], acc ++ specMediaAcc fm [(t, p)],
          fm || specAnyMedia [(t, p)]) := by
      rw [List.nil_append, hE1, stateMachineParser]
      exact smLoop_encodeParts [(t, p)] acc fm none
        (by intro tp htp; simp at htp; subst htp; exact henc (t, p) (by simp))
        (by intro tp htp; simp at htp; subst htp; exact hdec (t, p) (by simp))
    rw [hsm]
    show parseChunksLoop _ [] _ _ _ = _
    rw [ih _ _ _ henc' hdec']
    rw [← specHeaderAcc_cons_split hdr t p rest (fun h20 hpne => hdec (t, p) (by simp) h20 hpne)]
    rw [List.append_assoc, ← specMediaAcc_cons_split]

lemma ParseUMPChunks_encodeParts (parts : List (Nat × List Nat)) (hne : parts ≠ [])
    (henc : ∀ tp ∈ parts, tp.1 < 128 ∧ tp.2.length < 128)
    (hdec : ∀ tp ∈ parts, tp.1 = 20 → tp.2 ≠ [] → (unmarshalMediaHeader tp.2).isSome) :
    ParseUMPChunks (parts.map fun tp => encodePart tp.1 tp.2) =
      .ok ⟨specHeaderAcc none parts, specMediaAcc false parts⟩ := by
  rw [ParseUMPChunks, if_neg (by simp [hne])]
  rw [parseChunksLoop_encodeParts parts [] false none henc hdec]
  rfl

lemma part_pred_false {t : Nat} {p : List Nat} (k : Nat) (h : ¬(t = k ∧ p ≠ [])) :
    (t == k && !p.isEmpty) = false := by
  rw [Bool.and_eq_false_iff]
  by_cases ht : t = k
  · right
    subst ht
    simp only [Bool.not_eq_false', List.isEmpty_iff]
    by_contra hc
    exact h ⟨rfl, by simpa using hc⟩
  · left
    exact beq_eq_false_iff_ne.mpr ht

lemma specHeaderAcc_getLast (parts : List (Nat × List Nat)) :
    ∀ hdr, specHeaderAcc hdr parts =
      match (parts.filter fun tp => tp.1 == 20 && !tp.2.isEmpty).getLast? with
      | none => hdr
      | some tp => unmarshalMediaHeader tp.2 := by
  induction parts with
  | nil => intro hdr; rfl
  | cons tp rest ih =>
    obtain ⟨t, p⟩ := tp
    intro hdr
    by_cases h : t = 20 ∧ p ≠ []
    · have hpred : ((t, p).1 == 20 && !(t, p).2.isEmpty) = true := by
        simp [h.1, List.isEmpty_iff, h.2]
      rw [List.filter_cons, if_pos hpred]
      simp only [specHeaderAcc]
      rw [if_pos h, ih (unmarshalMediaHeader p)]
      cases hfe : rest.filter (fun tp => tp.1 == 20 && !tp.2.isEmpty) with
      | nil => rfl
      | cons a l =>
        rw [List.getLast?_cons_cons, List.getLast?_eq_getLast (a :: l) (by simp)]
    · have hpred : ((t, p).1 == 20 && !(t, p).2.isEmpty) = false := part_pred_false 20 h
      rw [List.filter_cons, if_neg (by simp [hpred])]
      simp only [specHeaderAcc]
      rw [if_neg h, ih hdr]

lemma lastWriterHeader_eq_specHeaderAcc (parts : List (Nat × List Nat)) :
    lastWriterHeader parts = specHeaderAcc none parts := by
  rw [specHeaderAcc_getLast parts none, lastWriterHeader]

/-! Progress and honesty of the divergence marker. -/

lemma smLoop_rem_le (rem acc : List Nat) (fm : Bool) (hdr : Option UMPMediaHeader) :
    ∀ {h : Option UMPMediaHeader} {rem' acc' : List Nat} {fm' : Bool},
      smLoop rem acc fm hdr = .ok (h, rem', acc', fm') → rem'.length ≤ rem.length := by
  induction rem, acc, fm, hdr using smLoop.induct with
  | case1 acc fm hdr =>
    intro h rem' acc' fm' heq
    rw [smLoop_nil] at heq
    injection heq with heq
    injection heq with h1 heq
    injection heq with h2 heq
    simp [← h2]
  | case2 rem acc fm hdr hne e o herr =>
    intro h rem' acc' fm' heq
    rw [smLoop_break1 acc fm hdr hne herr] at heq
    injection heq with heq
    injection heq with h1 heq
    injection heq with h2 heq
    simp [← h2]
  | case3 rem acc fm hdr hne t o1 h1 e o herr =>
    intro h rem' acc' fm' heq
    rw [smLoop_break2 acc fm hdr hne h1 herr] at heq
    injection heq with heq
    injection heq with ha heq
    injection heq with hb heq
    rw [← hb]
    simp [List.length_drop]
  | case4 rem acc fm hdr hne t o1 h1 o2 h2 ih =>
    intro h rem' acc' fm' heq
    rw [smLoop_cont acc fm hdr hne h1 h2, if_pos rfl] at heq
    have := ih heq
    simp only [List.length_drop] at this
    omega
  | case5 rem acc fm hdr hne t o1 h1 sz o2 h2 hsz hlt =>
    intro h rem' acc' fm' heq
    rw [smLoop_cont acc fm hdr hne h1 h2, if_neg hsz, if_pos hlt] at heq
    injection heq with heq
    injection heq with ha heq
    injection heq with hb heq
    rw [← hb]
    simp [List.length_drop]
  | case6 rem acc fm hdr hne o1 sz o2 h2 hsz hlt payload hnone =>
    rename_i h1
    intro h rem' acc' fm' heq
    rw [smLoop_cont acc fm hdr hne h1 h2, if_neg hsz, if_neg hlt, if_pos rfl] at heq
    have hnone' : unmarshalMediaHeader (List.take sz (List.drop o2 rem)) = none := hnone
    rw [hnone'] at heq
    cases heq
  | case7 rem acc fm hdr hne o1 sz o2 h2 hsz hlt payload ph hsome h1 =>
    rename_i ih
    intro h rem' acc' fm' heq
    rw [smLoop_cont acc fm hdr hne h1 h2, if_neg hsz, if_neg hlt, if_pos rfl] at heq
    have hsome' : unmarshalMediaHeader (List.take sz (List.drop o2 rem)) = some ph := hsome
    rw [hsome'] at heq
    have := ih heq
    simp only [List.length_drop] at this
    omega
  | case8 rem acc fm hdr hne o1 sz o2 h2 hsz hlt payload pacc h1 =>
    rename_i hne20 ih
    intro h rem' acc' fm' heq
    rw [smLoop_cont acc fm hdr hne h1 h2, if_neg hsz, if_neg hlt,
      if_neg (by decide : ¬(21 : Nat) = 20), if_pos rfl] at heq
    have := ih heq
    simp only [List.length_drop] at this
    omega
  | case9 rem acc fm hdr hne t o1 h1 sz o2 h2 hsz hlt ht20 ht21 ih =>
    intro h rem' acc' fm' heq
    rw [smLoop_cont acc fm hdr hne h1 h2, if_neg hsz, if_neg hlt,
      if_neg ht20, if_neg ht21] at heq
    have := ih heq
    simp only [List.length_drop] at this
    omega

/-- Justification for the divergence marker in the full-buffer model: an
invocation of the state machine that fails to shrink a non-empty buffer left
the entire session state untouched and produced no header, so the Go loop
`for buf.Len() > 0` re-runs the very same pure computation forever. -/
lemma stateMachineParser_no_progress (buf acc : List Nat) (fm : Bool)
    (hne : buf ≠ []) {h : Option UMPMediaHeader} {buf' acc' : List Nat} {fm' : Bool}
    (heq : stateMachineParser buf acc fm = .ok (h, buf', acc', fm'))
    (hnlt : ¬ buf'.length < buf.length) :
    buf' = buf ∧ acc' = acc ∧ fm' = fm ∧ h = none := by
  rw [stateMachineParser] at heq
  rcases hr1 : readVarInt buf 0 with ⟨e1 | t, o1⟩
  · rw [smLoop_break1 acc fm none hne hr1] at heq
    injection heq with heq
    injection heq with ha heq
    injection heq with hb heq
    injection heq with hc hd
    exact ⟨hb.symm, hc.symm, hd.symm, ha.symm⟩
  · have hb1 := readVarInt_ok_bounds hr1
    have hlp : 0 < buf.length := List.length_pos.mpr hne
    rcases hr2 : readVarInt buf o1 with ⟨e2 | sz, o2⟩
    · rw [smLoop_break2 acc fm none hne hr1 hr2] at heq
      injection heq with heq
      injection heq with ha heq
      injection heq with hb heq
      exfalso
      apply hnlt
      rw [← hb]
      simp only [List.length_drop]
      omega
    · have hb2 := readVarInt_ok_bounds hr2
      rw [smLoop_cont acc fm none hne hr1 hr2] at heq
      by_cases hsz : sz = 0
      · rw [if_pos hsz] at heq
        have := smLoop_rem_le _ _ _ _ heq
        exfalso
        apply hnlt
        simp only [List.length_drop] at this
        omega
      · rw [if_neg hsz] at heq
        by_cases hlt : buf.length < o2 + sz
        · rw [if_pos hlt] at heq
          injection heq with heq
          injection heq with ha heq
          injection heq with hb heq
          exfalso
          apply hnlt
          rw [← hb]
          simp only [List.length_drop]
          omega
        · rw [if_neg hlt] at heq
          have hle : ∀ {hx : Option UMPMediaHeader} {accx : List Nat} {fmx : Bool}
              {hdrx : Option UMPMediaHeader},
              smLoop (buf.drop (o2 + sz)) accx fmx hdrx = .ok (hx, buf', acc', fm') → False := by
            intro hx accx fmx hdrx he
            have := smLoop_rem_le _ _ _ _ he
            apply hnlt
            simp only [List.length_drop] at this
            omega
          by_cases ht20 : t = 20
          · rw [if_pos ht20] at heq
            cases hum : unmarshalMediaHeader ((buf.drop o2).take sz) with
            | none => rw [hum] at heq; cases heq
            | some ph => rw [hum] at heq; exact absurd heq (fun he => hle he)
          · rw [if_neg ht20] at heq
            by_cases ht21 : t = 21
            · rw [if_pos ht21] at heq
              exact absurd heq (fun he => hle he)
            · rw [if_neg ht21] at heq
              exact absurd heq (fun he => hle he)

/-! Additional varint lemmas used by the claims about the codec. -/

lemma getVarIntSize_cases (b : Nat) :
    getVarIntSize b = 1 ∨ getVarIntSize b = 2 ∨ getVarIntSize b = 3 ∨
      getVarIntSize b = 4 ∨ getVarIntSize b = 5 ∨ getVarIntSize b = 0 := by
  unfold getVarIntSize
  split_ifs <;> simp

/-- A successful read is unaffected by bytes appended after the slice: the
decoder only looks at indices below the returned offset, which is within the
original slice. -/
lemma readVarInt_append {data : List Nat} {off v o2 : Nat} (extra : List Nat)
    (h : readVarInt data off = (.ok v, o2)) :
    readVarInt (data ++ extra) off = (.ok v, o2) := by
  obtain ⟨hlt, hle, ho⟩ := readVarInt_ok_bounds h
  have hoff : off < data.length := by omega
  have hg : ∀ i, off + i < data.length →
      (data ++ extra).getD (off + i) 0 = data.getD (off + i) 0 := by
    intro i hi
    rw [List.getD_append _ _ _ _ hi]
  have hg0 : (data ++ extra).getD off 0 = data.getD off 0 := by
    have := hg 0 (by omega)
    simpa using this
  have hsz : getVarIntSize (data.getD off 0) ≠ 0 := by omega
  rcases getVarIntSize_cases (data.getD off 0) with hs | hs | hs | hs | hs | hs
  · rw [hs] at ho
    have e1 : readVarInt data off = (.ok (data.getD off 0), off + 1) := by
      simp only [readVarInt, hs]
      rw [if_neg (by omega), if_neg (by norm_num), if_neg (by omega)]
      norm_num
    rw [h] at e1
    rw [e1]
    simp only [readVarInt, hg0, hs, List.length_append]
    rw [if_neg (by omega), if_neg (by norm_num), if_neg (by omega)]
    norm_num
  · rw [hs] at ho
    have hg1 := hg 1 (by omega)
    have e1 : readVarInt data off =
        (.ok ((data.getD off 0 &&& 0x3F) ||| (data.getD (off + 1) 0 <<< 6)), off + 2) := by
      simp only [readVarInt, hs]
      rw [if_neg (by omega), if_neg (by norm_num), if_neg (by omega)]
      norm_num
    rw [h] at e1
    rw [e1]
    simp only [readVarInt, hg0, hg1, hs, List.length_append]
    rw [if_neg (by omega), if_neg (by norm_num), if_neg (by omega)]
    norm_num
  · rw [hs] at ho
    have hg1 := hg 1 (by omega)
    have hg2 := hg 2 (by omega)
    have e1 : readVarInt data off =
        (.ok ((data.getD off 0 &&& 0x1F) ||| (data.getD (off + 1) 0 <<< 5) |||
          (data.getD (off + 2) 0 <<< 13)), off + 3) := by
      simp only [readVarInt, hs]
      rw [if_neg (by omega), if_neg (by norm_num), if_neg (by omega)]
      norm_num
    rw [h] at e1
    rw [e1]
    simp only [readVarInt, hg0, hg1, hg2, hs, List.length_append]
    rw [if_neg (by omega), if_neg (by norm_num), if_neg (by omega)]
    norm_num
  · rw [hs] at ho
    have hg1 := hg 1 (by omega)
    have hg2 := hg 2 (by omega)
    have hg3 := hg 3 (by omega)
    have e1 : readVarInt data off =
        (.ok ((data.getD off 0 &&& 0x0F) ||| (data.getD (off + 1) 0 <<< 4) |||
          (data.getD (off + 2) 0 <<< 12) ||| (data.getD (off + 3) 0 <<< 20)), off + 4) := by
      simp only [readVarInt, hs]
      rw [if_neg (by omega), if_neg (by norm_num), if_neg (by omega)]
      norm_num
    rw [h] at e1
    rw [e1]
    simp only [readVarInt, hg0, hg1, hg2, hg3, hs, List.length_append]
    rw [if_neg (by omega), if_neg (by norm_num), if_neg (by omega)]
    norm_num
  · rw [hs] at ho
    have hg1 := hg 1 (by omega)
    have hg2 := hg 2 (by omega)
    have hg3 := hg 3 (by omega)
    have hg4 := hg 4 (by omega)
    have e1 : readVarInt data off =
        (.ok ((data.getD (off + 1) 0) ||| (data.getD (off + 2) 0 <<< 8) |||
          (data.getD (off + 3) 0 <<< 16) ||| (data.getD (off + 4) 0 <<< 24)), off + 5) := by
      simp only [readVarInt, hs]
      rw [if_neg (by omega), if_neg (by norm_num), if_neg (by omega)]
      norm_num
    rw [h] at e1
    rw [e1]
    simp only [readVarInt, hg0, hg1, hg2, hg3, hg4, hs, List.length_append]
    rw [if_neg (by omega), if_neg (by norm_num), if_neg (by omega)]
    norm_num
  · exact absurd hs hsz

/-- Helpers for C10: a zero-length type-21 part is skipped by both
specification accumulators. -/
lemma specMediaAcc_replicate_zero_parts (fm : Bool) (rest : List (Nat × List Nat)) :
    ∀ n, specMediaAcc fm (List.replicate n (21, ([] : List Nat)) ++ rest) =
      specMediaAcc fm rest := by
  intro n
  induction n with
  | zero => simp
  | succ k ihk =>
    rw [List.replicate_succ, List.cons_append]
    simp only [specMediaAcc]
    rw [if_neg (by simp)]
    exact ihk

lemma specHeaderAcc_replicate_zero_parts (hdr : Option UMPMediaHeader)
    (rest : List (Nat × List Nat)) :
    ∀ n, specHeaderAcc hdr (List.replicate n (21, ([] : List Nat)) ++ rest) =
      specHeaderAcc hdr rest := by
  intro n
  induction n with
  | zero => simp
  | succ k ihk =>
    rw [List.replicate_succ, List.cons_append]
    simp only [specHeaderAcc]
    rw [if_neg (by simp)]
    exact ihk

/-! The claims. -/

/-- C1: the claim that feeding any 2-way byte split of a sequence accepted by
`ParseUMPFull` through `ParseUMPChunks` yields the same result is FALSE.  On
the valid sequence `[21, 1, 0x41]` (one type-21 part with payload `[0x41]`),
the whole-buffer path yields media `[0x41]`, but the split `[[21], [1, 0x41]]`
yields empty media: the first chunk's lone type byte is evicted by
`buf.Next` after the failed part-size read, so the second chunk is misparsed
as a fresh header `type 1, length 0x41` and discarded as incomplete. -/
theorem C1_chunk_split_inequivalence :
    ParseUMPFull [21, 1, 65] = .ok ⟨none, [65]⟩ ∧
    ParseUMPChunks [[21], [1, 65]] = .ok ⟨none, []⟩ := by
  constructor
  · have h1 : readVarInt [21, 1, 65] 0 = (.ok 21, 1) := by decide
    have h2 : readVarInt [21, 1, 65] 1 = (.ok 1, 2) := by decide
    have hsm : stateMachineParser [21, 1, 65] [] false = .ok (none, [], [65], true) := by
      rw [stateMachineParser, smLoop_cont [] false none (by decide) h1 h2]
      norm_num
      rw [smLoop_nil]
    rw [ParseUMPFull]
    norm_num
    rw [parseFullLoop]
    norm_num
    rw [hsm]
    norm_num
    rw [parseFullLoop]
    norm_num [updateHeader]
  · have ha : readVarInt [21] 0 = (.ok 21, 1) := by decide
    have hb : readVarInt [21] 1 = (.error .noDataAvailable, 1) := by decide
    have hsm1 : stateMachineParser [21] [] false = .ok (none, [], [], false) := by
      rw [stateMachineParser, smLoop_break2 [] false none (by decide) ha hb]
      norm_num
    have hc : readVarInt [1, 65] 0 = (.ok 1, 1) := by decide
    have hd : readVarInt [1, 65] 1 = (.ok 65, 2) := by decide
    have hsm2 : stateMachineParser [1, 65] [] false = .ok (none, [], [], false) := by
      rw [stateMachineParser, smLoop_cont [] false none (by decide) hc hd]
      norm_num
    rw [ParseUMPChunks]
    norm_num
    rw [parseChunksLoop]
    norm_num
    rw [hsm1]
    norm_num [updateHeader]
    rw [parseChunksLoop]
    norm_num
    rw [hsm2]
    norm_num [updateHeader]
    rw [parseChunksLoop]

/-- C2: the claim that an invocation seeing a complete type+length header with
a short payload leaves the header bytes in the buffer and completes the part
on re-invocation is FALSE.  On buffer `[21, 2, 0x41]` (type 21, length 2, one
payload byte) the call returns with buffer `[0x41]` — the two header bytes
were evicted, although media and header are indeed unchanged — and the
re-invocation after appending the missing byte `0x42` misreads `0x41 0x42` as
a new part header, returning empty media instead of completing the part. -/
theorem C2_incomplete_part_header_evicted :
    stateMachineParser [21, 2, 65] [] false = .ok (none, [65], [], false) ∧
    stateMachineParser ([65] ++ [66]) [] false = .ok (none, [], [], false) := by
  constructor
  · have h1 : readVarInt [21, 2, 65] 0 = (.ok 21, 1) := by decide
    have h2 : readVarInt [21, 2, 65] 1 = (.ok 2, 2) := by decide
    rw [stateMachineParser, smLoop_cont [] false none (by decide) h1 h2]
    norm_num
  · have h1 : readVarInt [65, 66] 0 = (.ok 65, 1) := by decide
    have h2 : readVarInt [65, 66] 1 = (.ok 66, 2) := by decide
    rw [show ([65] ++ [66] : List Nat) = [65, 66] from rfl]
    rw [stateMachineParser, smLoop_cont [] false none (by decide) h1 h2]
    norm_num

/-- C3: the claim that `ParseUMPFull` terminates on every non-empty input is
FALSE.  On input `[0x80]` (the first byte announces a 2-byte varint that
never arrives) the state machine consumes nothing and returns the buffer
unchanged, so the `for buf.Len() > 0` loop re-runs the identical pure
computation forever (`stateMachineParser_no_progress` certifies that the
state is unchanged, which is what `RunResult.diverges` records). -/
theorem C3_full_parse_divergence : ParseUMPFull [128] = .diverges := by
  have h1 : readVarInt [128] 0 = (.error .incompleteVarint, 0) := by decide
  rw [ParseUMPFull]
  norm_num
  rw [parseFullLoop]
  norm_num [stateMachineParser]
  rw [smLoop_break1 [] false none (by decide) h1]
  norm_num

/-- C4: the claim that a malformed varint (all five top bits set) aborts the
whole decode with a surfaced `MalformedVarint` error is FALSE.  `readVarInt`
does produce that positional error on `0xF8`, but `stateMachineParser`
swallows every `readVarInt` error with the same `break`, so
`ParseUMPChunks [[0xF8]]` returns success with an empty result instead of
failing, and `ParseUMPFull [0xF8]` loops forever. -/
theorem C4_malformed_varint_absorbed :
    readVarInt [248] 0 = (.error (.malformedVarint 0), 0) ∧
    ParseUMPChunks [[248]] = .ok ⟨none, []⟩ ∧
    ParseUMPFull [248] = .diverges := by
  refine ⟨by decide, ?_, ?_⟩
  · have h1 : readVarInt [248] 0 = (.error (.malformedVarint 0), 0) := by decide
    have hsm : stateMachineParser [248] [] false = .ok (none, [248], [], false) := by
      rw [stateMachineParser]
      exact smLoop_break1 [] false none (by decide) h1
    rw [ParseUMPChunks]
    norm_num
    rw [parseChunksLoop]
    norm_num
    rw [hsm]
    norm_num [updateHeader]
    rw [parseChunksLoop]
  · have h1 : readVarInt [248] 0 = (.error (.malformedVarint 0), 0) := by decide
    rw [ParseUMPFull]
    norm_num
    rw [parseFullLoop]
    norm_num [stateMachineParser]
    rw [smLoop_break1 [] false none (by decide) h1]
    norm_num

/-- C5 counterexample: the claim strips the first type-21 payload that is
non-empty AND zero-leading, wherever it occurs.  In the session
`[21,1,0x41, 21,1,0x00]` the type-21 payloads are `[0x41]` then `[0x00]`; the
claim's rule (`claimC5Media`) predicts media `[0x41]` (the second payload is
the first zero-leading one, so its zero is stripped), but the code only ever
strips the very first non-empty type-21 payload of the session: the first
payload `[0x41]` sets the first-media flag, and `[0x00]` is appended
verbatim, giving `[0x41, 0x00]`. -/
theorem C5_claim_counterexample :
    ParseUMPFull [21, 1, 65, 21, 1, 0] = .ok ⟨none, [65, 0]⟩ ∧
    claimC5Media false [[65], [0]] = [65] ∧
    ParseUMPFull [21, 1, 65, 21, 1, 0] ≠ .ok ⟨none, claimC5Media false [[65], [0]]⟩ := by
  have h1 : readVarInt [21, 1, 65, 21, 1, 0] 0 = (.ok 21, 1) := by decide
  have h2 : readVarInt [21, 1, 65, 21, 1, 0] 1 = (.ok 1, 2) := by decide
  have h3 : readVarInt [21, 1, 0] 0 = (.ok 21, 1) := by decide
  have h4 : readVarInt [21, 1, 0] 1 = (.ok 1, 2) := by decide
  have hfull : ParseUMPFull [21, 1, 65, 21, 1, 0] = .ok ⟨none, [65, 0]⟩ := by
    have hsm : stateMachineParser [21, 1, 65, 21, 1, 0] [] false =
        .ok (none, [], [65, 0], true) := by
      rw [stateMachineParser, smLoop_cont [] false none (by decide) h1 h2]
      norm_num
      rw [smLoop_cont [65] true none (by decide) h3 h4]
      norm_num
      rw [smLoop_nil]
    rw [ParseUMPFull]
    norm_num
    rw [parseFullLoop]
    norm_num
    rw [hsm]
    norm_num
    rw [parseFullLoop]
    norm_num [updateHeader]
  refine ⟨hfull, by decide, ?_⟩
  rw [hfull]
  decide

/-- C5 as amended: within one session, the code strips one leading byte only
from the FIRST processed (non-zero-length) type-21 payload, and only when that
first byte is zero (`specMediaAcc`, reading the first-media flag); every later
type-21 payload is appended verbatim, and the first-media flag is true exactly
when some non-zero-length type-21 part was processed (`specAnyMedia`),
regardless of whether stripping fired. -/
theorem C5_first_media_strip_amended (parts : List (Nat × List Nat))
    (henc : ∀ tp ∈ parts, tp.1 < 128 ∧ tp.2.length < 128)
    (hdec : ∀ tp ∈ parts, tp.1 = 20 → tp.2 ≠ [] → (unmarshalMediaHeader tp.2).isSome) :
    stateMachineParser (encodeParts parts) [] false =
      .ok (specHeaderAcc none parts, [], specMediaAcc false parts, specAnyMedia parts) := by
  rw [stateMachineParser, smLoop_encodeParts parts [] false none henc hdec]
  simp

/-- C5 witness: the spec's own example — first type-21 payload
`[0x00, 0x41, 0x42]` is stripped to `[0x41, 0x42]`, a second type-21 payload
`[0x00, 0x43]` is appended verbatim, final media
`[0x41, 0x42, 0x00, 0x43]` with the first-media flag set. -/
theorem C5_first_media_strip_amended_witness :
    stateMachineParser (encodeParts [(21, [0, 65, 66]), (21, [0, 67])]) [] false =
      .ok (none, [], [65, 66, 0, 67], true) :=
  (C5_first_media_strip_amended [(21, [0, 65, 66]), (21, [0, 67])]
    (by decide) (by decide)).trans (by decide)

/-- C6: for every valid encoding in each of the five size classes — the class
given by the pattern of leading one-bits of the first byte — `readVarInt`
returns exactly the table's value and advances the cursor by exactly the
class's size: 1-byte `b0`; 2-byte `(b0 &&& 0x3F) ||| b1 <<< 6`; 3-byte
`(b0 &&& 0x1F) ||| b1 <<< 5 ||| b2 <<< 13`; 4-byte
`(b0 &&& 0x0F) ||| b1 <<< 4 ||| b2 <<< 12 ||| b3 <<< 20`; 5-byte
`b1 ||| b2 <<< 8 ||| b3 <<< 16 ||| b4 <<< 24` with `b0`'s low bits
discarded; continuation bytes least-significant first. -/
theorem C6_varint_size_classes (data : List Nat) (off : Nat) (hoff : off < data.length) :
    (data.getD off 0 &&& 0x80 = 0 →
      readVarInt data off = (.ok (data.getD off 0), off + 1)) ∧
    (data.getD off 0 &&& 0x80 ≠ 0 → data.getD off 0 &&& 0x40 = 0 →
        off + 2 ≤ data.length →
      readVarInt data off =
        (.ok ((data.getD off 0 &&& 0x3F) ||| (data.getD (off + 1) 0 <<< 6)), off + 2)) ∧
    (data.getD off 0 &&& 0x80 ≠ 0 → data.getD off 0 &&& 0x40 ≠ 0 →
        data.getD off 0 &&& 0x20 = 0 → off + 3 ≤ data.length →
      readVarInt data off =
        (.ok ((data.getD off 0 &&& 0x1F) ||| (data.getD (off + 1) 0 <<< 5) |||
          (data.getD (off + 2) 0 <<< 13)), off + 3)) ∧
    (data.getD off 0 &&& 0x80 ≠ 0 → data.getD off 0 &&& 0x40 ≠ 0 →
        data.getD off 0 &&& 0x20 ≠ 0 → data.getD off 0 &&& 0x10 = 0 →
        off + 4 ≤ data.length →
      readVarInt data off =
        (.ok ((data.getD off 0 &&& 0x0F) ||| (data.getD (off + 1) 0 <<< 4) |||
          (data.getD (off + 2) 0 <<< 12) ||| (data.getD (off + 3) 0 <<< 20)), off + 4)) ∧
    (data.getD off 0 &&& 0x80 ≠ 0 → data.getD off 0 &&& 0x40 ≠ 0 →
        data.getD off 0 &&& 0x20 ≠ 0 → data.getD off 0 &&& 0x10 ≠ 0 →
        data.getD off 0 &&& 0x08 = 0 → off + 5 ≤ data.length →
      readVarInt data off =
        (.ok ((data.getD (off + 1) 0) ||| (data.getD (off + 2) 0 <<< 8) |||
          (data.getD (off + 3) 0 <<< 16) ||| (data.getD (off + 4) 0 <<< 24)), off + 5)) := by
  refine ⟨?_, ?_, ?_, ?_, ?_⟩
  · intro h80
    have hsize : getVarIntSize (data.getD off 0) = 1 := by
      simp only [getVarIntSize]
      rw [if_pos h80]
    simp only [readVarInt, hsize]
    rw [if_neg (by omega), if_neg (by norm_num), if_neg (by omega)]
    norm_num
  · intro h80 h40 hlen
    have hsize : getVarIntSize (data.getD off 0) = 2 := by
      simp only [getVarIntSize]
      rw [if_neg h80, if_pos h40]
    simp only [readVarInt, hsize]
    rw [if_neg (by omega), if_neg (by norm_num), if_neg (by omega)]
    norm_num
  · intro h80 h40 h20 hlen
    have hsize : getVarIntSize (data.getD off 0) = 3 := by
      simp only [getVarIntSize]
      rw [if_neg h80, if_neg h40, if_pos h20]
    simp only [readVarInt, hsize]
    rw [if_neg (by omega), if_neg (by norm_num), if_neg (by omega)]
    norm_num
  · intro h80 h40 h20 h10 hlen
    have hsize : getVarIntSize (data.getD off 0) = 4 := by
      simp only [getVarIntSize]
      rw [if_neg h80, if_neg h40, if_neg h20, if_pos h10]
    simp only [readVarInt, hsize]
    rw [if_neg (by omega), if_neg (by norm_num), if_neg (by omega)]
    norm_num
  · intro h80 h40 h20 h10 h08 hlen
    have hsize : getVarIntSize (data.getD off 0) = 5 := by
      simp only [getVarIntSize]
      rw [if_neg h80, if_neg h40, if_neg h20, if_neg h10, if_pos h08]
    simp only [readVarInt, hsize]
    rw [if_neg (by omega), if_neg (by norm_num), if_neg (by omega)]
    norm_num

/-- C6 witness: one concrete valid encoding per size class. -/
theorem C6_varint_size_classes_witness :
    readVarInt [65] 0 = (.ok 65, 1) ∧
    readVarInt [129, 2] 0 = (.ok ((129 &&& 63) ||| (2 <<< 6)), 2) ∧
    readVarInt [193, 2, 3] 0 = (.ok ((193 &&& 31) ||| (2 <<< 5) ||| (3 <<< 13)), 3) ∧
    readVarInt [225, 2, 3, 4] 0 =
      (.ok ((225 &&& 15) ||| (2 <<< 4) ||| (3 <<< 12) ||| (4 <<< 20)), 4) ∧
    readVarInt [241, 2, 3, 4, 5] 0 =
      (.ok (2 ||| (3 <<< 8) ||| (4 <<< 16) ||| (5 <<< 24)), 5) :=
  ⟨(C6_varint_size_classes [65] 0 (by norm_num)).1 (by decide),
   (C6_varint_size_classes [129, 2] 0 (by norm_num)).2.1 (by decide) (by decide)
     (by norm_num),
   (C6_varint_size_classes [193, 2, 3] 0 (by norm_num)).2.2.1 (by decide) (by decide)
     (by decide) (by norm_num),
   (C6_varint_size_classes [225, 2, 3, 4] 0 (by norm_num)).2.2.2.1 (by decide)
     (by decide) (by decide) (by decide) (by norm_num),
   (C6_varint_size_classes [241, 2, 3, 4, 5] 0 (by norm_num)).2.2.2.2 (by decide)
     (by decide) (by decide) (by decide) (by decide) (by norm_num)⟩

/-- C7: the codec's safety contract.  On success the cursor strictly advances
by the size implied by the first byte and stays within the slice; a
successful read is unchanged by any bytes appended past the slice (it never
reads past the bound); on every failure the cursor is unchanged; and a slice
shorter than the implied size fails with the insufficient-data error
`incompleteVarint`, which is distinct from every `malformedVarint` error. -/
theorem C7_varint_cursor_and_bounds (data : List Nat) (off : Nat) :
    (∀ v o2, readVarInt data off = (.ok v, o2) →
      off < o2 ∧ o2 ≤ data.length ∧ o2 = off + getVarIntSize (data.getD off 0)) ∧
    (∀ v o2 (extra : List Nat), readVarInt data off = (.ok v, o2) →
      readVarInt (data ++ extra) off = (.ok v, o2)) ∧
    (∀ e o2, readVarInt data off = (.error e, o2) → o2 = off) ∧
    (off < data.length → getVarIntSize (data.getD off 0) ≠ 0 →
      data.length < off + getVarIntSize (data.getD off 0) →
      readVarInt data off = (.error .incompleteVarint, off) ∧
      ∀ k, (UMPError.incompleteVarint ≠ UMPError.malformedVarint k)) := by
  refine ⟨fun v o2 h => readVarInt_ok_bounds h,
    fun v o2 extra h => readVarInt_append extra h,
    fun e o2 h => readVarInt_error_offset h,
    fun hoff hsz hshort => ⟨?_, fun k hk => by cases hk⟩⟩
  simp only [readVarInt]
  rw [if_neg (by omega), if_neg hsz, if_pos (by omega)]

/-- C7 witness: a 2-byte read succeeds and is stable under appended bytes; a
truncated 2-byte varint fails with `incompleteVarint` leaving the cursor at 0. -/
theorem C7_varint_cursor_and_bounds_witness :
    readVarInt [129, 7, 9, 9] 0 = (.ok ((129 &&& 63) ||| (7 <<< 6)), 2) ∧
    readVarInt [129] 0 = (.error .incompleteVarint, 0) :=
  ⟨(C7_varint_cursor_and_bounds [129, 7] 0).2.1 ((129 &&& 63) ||| (7 <<< 6)) 2 [9, 9]
     (by decide),
   ((C7_varint_cursor_and_bounds [129] 0).2.2.2 (by norm_num) (by decide)
     (by decide)).1⟩

/-- C8 counterexample: a single empty chunk does NOT produce the no-data
error — `ParseUMPChunks` skips empty chunks and returns success with an empty
result. -/
theorem C8_single_empty_chunk_counterexample :
    ParseUMPChunks [[]] ≠ .error .noData ∧
    ParseUMPChunks [[]] = .ok ⟨none, []⟩ := by
  exact ⟨by decide, by decide⟩

/-- C8 as amended: zero chunks and an empty whole buffer each fail
immediately with `noData`, before the state machine is touched; a single
empty chunk, however, is skipped as a no-op and the call returns successfully
with an empty result (no header, no media). -/
theorem C8_empty_inputs :
    ParseUMPChunks [] = .error .noData ∧
    ParseUMPFull [] = .err .noData ∧
    ParseUMPChunks [[]] = .ok ⟨none, []⟩ := by
  refine ⟨by decide, by rfl, by decide⟩

/-- C9: last-writer-wins for the header record.  For any encodable part
sequence whose type-20 payloads decode, both entry points return exactly the
record decoded from the payload of the most recent processed type-20 part
(`lastWriterHeader`: the last element of the filtered part list, decoded
wholesale — no merging of fields from earlier records), whether the parts
arrive in one buffer or as one chunk per part. -/
theorem C9_header_last_writer_wins (parts : List (Nat × List Nat)) (hne : parts ≠ [])
    (henc : ∀ tp ∈ parts, tp.1 < 128 ∧ tp.2.length < 128)
    (hdec : ∀ tp ∈ parts, tp.1 = 20 → tp.2 ≠ [] → (unmarshalMediaHeader tp.2).isSome) :
    (∃ media, ParseUMPFull (encodeParts parts) =
      .ok ⟨lastWriterHeader parts, media⟩) ∧
    (∃ media, ParseUMPChunks (parts.map fun tp => encodePart tp.1 tp.2) =
      .ok ⟨lastWriterHeader parts, media⟩) := by
  rw [lastWriterHeader_eq_specHeaderAcc]
  exact ⟨⟨_, ParseUMPFull_encodeParts parts hne henc hdec⟩,
    ⟨_, ParseUMPChunks_encodeParts parts hne henc hdec⟩⟩

/-- C9 witness: two type-20 parts with different video identifiers (protobuf
field 2 strings "A" and "B"); the final header is the decode of the second
payload in both the whole-buffer and the chunked entry points. -/
theorem C9_header_last_writer_wins_witness :
    (∃ media, ParseUMPFull (encodeParts [(20, [18, 1, 65]), (20, [18, 1, 66])]) =
      .ok ⟨lastWriterHeader [(20, [18, 1, 65]), (20, [18, 1, 66])], media⟩) ∧
    (∃ media, ParseUMPChunks
        ([(20, [18, 1, 65]), (20, [18, 1, 66])].map fun tp => encodePart tp.1 tp.2) =
      .ok ⟨lastWriterHeader [(20, [18, 1, 65]), (20, [18, 1, 66])], media⟩) :=
  C9_header_last_writer_wins [(20, [18, 1, 65]), (20, [18, 1, 66])]
    (by decide) (by decide) (by decide)

/-- C10: a type-21 part of declared length zero is a complete no-op — the
state machine behaves on `encodePart 21 [] ++ bs` exactly as on `bs`, for any
accumulator state and flag — and consequently the leading-zero strip still
applies to the first subsequent non-empty type-21 payload: any number of
zero-length type-21 parts followed by a type-21 part with payload
`0x00 :: p` decodes to media exactly `p`. -/
theorem C10_zero_length_media_parts :
    (∀ (bs acc : List Nat) (fm : Bool),
      stateMachineParser (encodePart 21 [] ++ bs) acc fm = stateMachineParser bs acc fm) ∧
    (∀ (n : Nat) (p : List Nat), p.length < 127 →
      ParseUMPFull (encodeParts (List.replicate n (21, ([] : List Nat)) ++ [(21, 0 :: p)])) =
        .ok ⟨none, p⟩) := by
  constructor
  · intro bs acc fm
    have hE : encodePart 21 ([] : List Nat) ++ bs = 21 :: 0 :: bs := by
      simp [encodePart]
    rw [hE, stateMachineParser, stateMachineParser]
    have h1 : readVarInt (21 :: 0 :: bs) 0 = (.ok 21, 1) :=
      readVarInt_cons_small _ (by norm_num)
    have h2 : readVarInt (21 :: 0 :: bs) 1 = (.ok 0, 2) :=
      readVarInt_cons_cons_one _ _ (by norm_num)
    rw [smLoop_cont acc fm none (by simp) h1 h2, if_pos rfl]
    rfl
  · intro n p hp
    have hne : List.replicate n (21, ([] : List Nat)) ++ [(21, 0 :: p)] ≠ [] := by
      simp
    have henc : ∀ tp ∈ List.replicate n (21, ([] : List Nat)) ++ [(21, 0 :: p)],
        tp.1 < 128 ∧ tp.2.length < 128 := by
      intro tp htp
      rw [List.mem_append] at htp
      rcases htp with htp | htp
      · rw [List.eq_of_mem_replicate htp]
        norm_num
      · simp at htp
        subst htp
        simp
        omega
    have hdec : ∀ tp ∈ List.replicate n (21, ([] : List Nat)) ++ [(21, 0 :: p)],
        tp.1 = 20 → tp.2 ≠ [] → (unmarshalMediaHeader tp.2).isSome := by
      intro tp htp h20
      rw [List.mem_append] at htp
      rcases htp with htp | htp
      · rw [List.eq_of_mem_replicate htp] at h20
        simp at h20
      · simp at htp
        subst htp
        simp at h20
    rw [ParseUMPFull_encodeParts _ hne henc hdec]
    rw [specMediaAcc_replicate_zero_parts, specHeaderAcc_replicate_zero_parts]
    simp only [specMediaAcc, specHeaderAcc]
    norm_num
    exact fun h => absurd h (by simp)

/-- C10 witness: two zero-length type-21 parts followed by a type-21 part
with payload `[0x00, 0x05]` yield media `[0x05]`, and prefixing a buffer with
a zero-length type-21 part does not change a concrete parse. -/
theorem C10_zero_length_media_parts_witness :
    stateMachineParser (encodePart 21 [] ++ [21, 1, 65]) [] false =
      stateMachineParser [21, 1, 65] [] false ∧
    ParseUMPFull (encodeParts
        (List.replicate 2 (21, ([] : List Nat)) ++ [(21, 0 :: [5])])) =
      .ok ⟨none, [5]⟩ :=
  ⟨C10_zero_length_media_parts.1 [21, 1, 65] [] false,
   C10_zero_length_media_parts.2 2 [5] (by norm_num)⟩

end UMPParser
